import Mathlib

/-!
Verification of the protein-bond modelling script
(model_protein_bonds_hack.py) against its specification.

Shallow embedding conventions:
  * a JSON document is the `Document` structure below (the `sequences`
    array of chain entries and the `bondedAtomPairs` array);
  * Python strings holding residue sequences are `List Char`; chain ids
    and atom names are `String`;
  * residue numbers are `Nat`.  All theorems below only ever evaluate the
    embedded code at 1-based residue positions, where Python's negative
    indexing and negative dict keys are unreachable, so Nat subtraction
    agrees with Python's integer arithmetic in every reachable case;
  * the residue-mapping dictionary is a function
    `String -> Nat -> Option MappedRes`; a `none` result corresponds to a
    Python KeyError.  An in-place dict write that can fail with KeyError
    is an `Option Registry` result;
  * a Python exception is the `Except.error` branch; functions that can
    raise return `Except String _`.
-/

/-- One endpoint of a bond record: the triple (chainId, residueNumber,
atomName) of the JSON `bondedAtomPairs` entries. -/
structure Atom where
  chain : String
  pos : Nat
  name : String
deriving DecidableEq

/-- A bond record is a Python list of endpoint triples; a well-formed one
has exactly two elements, but the data allows any length. -/
abbrev BondRec := List Atom

/-- The payload of a `{"protein": {...}}` chain entry. -/
structure ProteinEntry where
  id : String
  sequence : List Char
deriving DecidableEq

/-- The payload of a `{"ligand": {...}}` chain entry. -/
structure LigandEntry where
  id : String
  ccdCodes : List String
deriving DecidableEq

/-- A chain entry of the `sequences` array: a protein, a ligand, or a
nucleic-acid entry (whose payload the script never inspects). -/
inductive ChainEntry where
  | protein (p : ProteinEntry)
  | ligand (l : LigandEntry)
  | dna (payload : String)
  | rna (payload : String)
deriving DecidableEq

/-- The in-memory JSON document. -/
structure Document where
  sequences : List ChainEntry
  bondedAtomPairs : List BondRec
deriving DecidableEq

/-- One value of the residue-mapping dictionary: the
`{"modified_chain_id", "modified_residue_num"}` record. -/
structure MappedRes where
  modified_chain_id : String
  modified_residue_num : Nat
deriving DecidableEq

/-- The residue-mapping dictionary
`{chain_id: {residue_num: MappedRes}}`; `none` is an absent key. -/
abbrev Registry := String → Nat → Option MappedRes

/-- A single in-place write `residue_mapping[c][p] = v`: fails (Python
KeyError) when the key is absent, otherwise overwrites the entry. -/
def setRes (reg : Registry) (c : String) (p : Nat) (v : MappedRes) : Option Registry :=
  match reg c p with
  | none => none
  | some _ => some (fun c2 p2 => if c2 = c ∧ p2 = p then some v else reg c2 p2)

/-- A sequence of in-place writes to one chain's sub-dictionary, failing
at the first absent key (the Python for-loops of the update functions). -/
def setResFold (reg : Registry) (c : String) (kvs : List (Nat × MappedRes)) : Option Registry :=
  kvs.foldlM (fun r kv => setRes r c kv.1 kv.2) reg

/-- initialize_residue_mapping: for every protein entry, identity entries
for residues 1..length (a later duplicate id would replace the whole
sub-dictionary, as the Python dict assignment does). -/
def initialize_residue_mapping (json_data : Document) : Registry :=
  json_data.sequences.foldl
    (fun reg entry =>
      match entry with
      | ChainEntry.protein p =>
          fun c i =>
            if c = p.id then
              if 1 ≤ i ∧ i ≤ p.sequence.length then some ⟨p.id, i⟩ else none
            else reg c i
      | _ => reg)
    (fun _ _ => none)

/-- The protein chain ids of a chain-entry list, in order. -/
def protein_ids : List ChainEntry → List String
  | [] => []
  | ChainEntry.protein p :: rest => p.id :: protein_ids rest
  | ChainEntry.ligand _ :: rest => protein_ids rest
  | ChainEntry.dna _ :: rest => protein_ids rest
  | ChainEntry.rna _ :: rest => protein_ids rest

/-- find_protein_protein_bonds: the bond records of exactly two endpoints
whose two chain ids both name protein chains of the document. -/
def find_protein_protein_bonds (json_data : Document) : List BondRec :=
  let protein_chains := protein_ids json_data.sequences
  json_data.bondedAtomPairs.filter
    (fun bond =>
      match bond with
      | [a1, a2] => protein_chains.contains a1.chain && protein_chains.contains a2.chain
      | _ => false)

/-- The loop of get_sequence_info over the entry list: the first protein
entry with the given id. -/
def find_protein_entry : List ChainEntry → String → Option ProteinEntry
  | [], _ => none
  | ChainEntry.protein p :: rest, c => if p.id = c then some p else find_protein_entry rest c
  | ChainEntry.ligand _ :: rest, c => find_protein_entry rest c
  | ChainEntry.dna _ :: rest, c => find_protein_entry rest c
  | ChainEntry.rna _ :: rest, c => find_protein_entry rest c

/-- get_sequence_info: the protein entry of the chain, `none` standing for
the empty dict the Python function returns when the chain is absent. -/
def get_sequence_info (json_data : Document) (chain_id : String) : Option ProteinEntry :=
  find_protein_entry json_data.sequences chain_id

/-- is_terminal_residue: position 1 or the last position of the sequence. -/
def is_terminal_residue (sequence : List Char) (residue_position : Nat) : Bool :=
  residue_position == 1 || residue_position == sequence.length

/-- update_residue_mapping_for_terminal_split, exactly as the source
writes it: the C-terminal branch keys the ligand entry by `ligand_seq_num`
(the current position), the N-terminal branch by `ligand_seq_num_old`. -/
def update_residue_mapping_for_terminal_split (residue_mapping : Registry)
    (split_chain_id split_chain_id_orig : String)
    (ligand_seq_num ligand_seq_num_old sequence_length : Nat)
    (is_c_terminal : Bool) (new_chain_id : String) : Option Registry :=
  if is_c_terminal then
    let basepos := ligand_seq_num_old - sequence_length
    match setResFold residue_mapping split_chain_id_orig
        ((List.range' 1 (ligand_seq_num - 1)).map
          (fun pos => (basepos + pos, ⟨new_chain_id, pos⟩))) with
    | none => none
    | some r1 => setRes r1 split_chain_id_orig ligand_seq_num ⟨split_chain_id ++ "L", 1⟩
  else
    match setRes residue_mapping split_chain_id_orig ligand_seq_num_old
        ⟨split_chain_id ++ "L", 1⟩ with
    | none => none
    | some r1 =>
        let basepos := ligand_seq_num_old
        setResFold r1 split_chain_id_orig
          ((List.range' 1 (sequence_length - 1)).map
            (fun pos => (basepos + pos, ⟨new_chain_id, pos⟩)))

/-- update_residue_mapping_for_internal_split: part A, the ligand residue,
then part B, all keyed by `basepos + pos` over original numbering. -/
def update_residue_mapping_for_internal_split (residue_mapping : Registry)
    (split_chain_id split_chain_id_orig : String)
    (ligand_seq_num ligand_seq_num_old ligand_length : Nat) : Option Registry :=
  let basepos := ligand_seq_num_old - ligand_seq_num
  match setResFold residue_mapping split_chain_id_orig
      ((List.range' 1 (ligand_seq_num - 1)).map
        (fun pos => (basepos + pos, ⟨split_chain_id ++ "A", pos⟩))) with
  | none => none
  | some r1 =>
    match setRes r1 split_chain_id_orig (basepos + ligand_seq_num)
        ⟨split_chain_id ++ "L", 1⟩ with
    | none => none
    | some r2 =>
        setResFold r2 split_chain_id_orig
          ((List.range' (ligand_seq_num + 1) (ligand_length - ligand_seq_num)).map
            (fun pos => (basepos + pos, ⟨split_chain_id ++ "B", pos - ligand_seq_num⟩)))

/-- get_amino_acid_ccd_map: the fixed 20-entry table. -/
def get_amino_acid_ccd_map : List (Char × String) :=
  [('G', "GLY"), ('A', "ALA"), ('V', "VAL"), ('L', "LEU"), ('I', "ILE"),
   ('P', "PRO"), ('F', "PHE"), ('Y', "TYR"), ('W', "TRP"), ('S', "SER"),
   ('T', "THR"), ('C', "CYS"), ('M', "MET"), ('N', "ASN"), ('Q', "GLN"),
   ('D', "ASP"), ('E', "GLU"), ('K', "LYS"), ('R', "ARG"), ('H', "HIS")]

/-- create_ligand_from_residue: the ligand entry with id
`chain_id ++ suffix` and the CCD code of the residue, or "UNK". -/
def create_ligand_from_residue (chain_id : String) (residue_char : Char)
    (ligand_suffix : String) : ChainEntry :=
  ChainEntry.ligand
    ⟨chain_id ++ ligand_suffix, [(get_amino_acid_ccd_map.lookup residue_char).getD "UNK"]⟩

/-- create_protein_sequence. -/
def create_protein_sequence (chain_id : String) (sequence : List Char) : ChainEntry :=
  ChainEntry.protein ⟨chain_id, sequence⟩

/-- add_peptide_bond: the record it appends, connecting the first chain's
residue atom "C" to the second chain's residue atom "N". -/
def add_peptide_bond (chain1_id : String) (chain1_pos : Nat)
    (chain2_id : String) (chain2_pos : Nat) : BondRec :=
  [⟨chain1_id, chain1_pos, "C"⟩, ⟨chain2_id, chain2_pos, "N"⟩]

/-- The inner helper of correct_chain_and_resnum, deciding an endpoint's
new chain id and residue number. -/
def ccr_helper (split_chain_id : String) (ligand_seq_num : Nat)
    (ligand_id part_a_id part_b_id : String) (c : String) (s : Nat) : String × Nat :=
  if c = split_chain_id then
    if s = ligand_seq_num then (ligand_id, 1)
    else if s < ligand_seq_num then (part_a_id, s)
    else (part_b_id, s - ligand_seq_num)
  else (c, s)

/-- A whole endpoint through ccr_helper: the atom name is untouched. -/
def rewrite_atom (split_chain_id : String) (ligand_seq_num : Nat)
    (ligand_id part_a_id part_b_id : String) (a : Atom) : Atom :=
  match ccr_helper split_chain_id ligand_seq_num ligand_id part_a_id part_b_id a.chain a.pos with
  | (c, s) => ⟨c, s, a.name⟩

/-- correct_chain_and_resnum: rewrites every record, raising ValueError at
a record that does not have exactly two endpoints. -/
def correct_chain_and_resnum (bondedAtomPairs : List BondRec) (split_chain_id : String)
    (ligand_seq_num : Nat) (ligand_id part_a_id part_b_id : String) :
    Except String (List BondRec) :=
  match bondedAtomPairs with
  | [] => Except.ok []
  | pair :: rest =>
    match pair with
    | [p1, p2] =>
      match correct_chain_and_resnum rest split_chain_id ligand_seq_num ligand_id
          part_a_id part_b_id with
      | Except.error e => Except.error e
      | Except.ok tl =>
          Except.ok
            ([rewrite_atom split_chain_id ligand_seq_num ligand_id part_a_id part_b_id p1,
              rewrite_atom split_chain_id ligand_seq_num ligand_id part_a_id part_b_id p2] :: tl)
    | _ => Except.error "Bonded atom pair must have exactly two elements"

/-- The variables process_chain_bond binds when it picks which endpoint
becomes the bridge (source lines 403-440).  `target_chain_id` and
`target_seq_num` (the target's current values) are assigned in the source
but never read again, so they are not carried. -/
structure SplitArgs where
  use_chain1 : Bool
  split_chain_id : String
  split_chain_id_orig : String
  ligand_seq_num : Nat
  ligand_seq_num_old : Nat
  ligand_atom_name : String
  target_chain_id_orig : String
  target_seq_num_old : Nat
  target_atom_name : String
  split_chain_sequence : List Char
  is_ligand_terminal : Bool

/-- The endpoint-selection block of process_chain_bond: prefer a terminal
residue, tie-break to endpoint 1
(use_chain1_for_split = chain1_is_terminal or not chain2_is_terminal). -/
def select_split (atom1 atom2 : Atom) (m1 m2 : MappedRes)
    (chain1_info chain2_info : ProteinEntry) : SplitArgs :=
  let chain1_is_terminal := is_terminal_residue chain1_info.sequence m1.modified_residue_num
  let chain2_is_terminal := is_terminal_residue chain2_info.sequence m2.modified_residue_num
  let use_chain1_for_split := chain1_is_terminal || !chain2_is_terminal
  if use_chain1_for_split then
    { use_chain1 := true
      split_chain_id := m1.modified_chain_id
      split_chain_id_orig := atom1.chain
      ligand_seq_num := m1.modified_residue_num
      ligand_seq_num_old := atom1.pos
      ligand_atom_name := atom1.name
      target_chain_id_orig := atom2.chain
      target_seq_num_old := atom2.pos
      target_atom_name := atom2.name
      split_chain_sequence := chain1_info.sequence
      is_ligand_terminal := chain1_is_terminal }
  else
    { use_chain1 := false
      split_chain_id := m2.modified_chain_id
      split_chain_id_orig := atom2.chain
      ligand_seq_num := m2.modified_residue_num
      ligand_seq_num_old := atom2.pos
      ligand_atom_name := atom2.name
      target_chain_id_orig := atom1.chain
      target_seq_num_old := atom1.pos
      target_atom_name := atom1.name
      split_chain_sequence := chain2_info.sequence
      is_ligand_terminal := chain2_is_terminal }

/-- The terminal branch of the structural split (source lines 449-466):
the surviving fragment entry (omitted when empty) and its peptide bond to
the ligand.  Python's seq[:-1] is dropLast, seq[1:] is drop 1. -/
def terminal_split_fragments (s : SplitArgs) : List ChainEntry × List BondRec :=
  let is_c_terminal := s.ligand_seq_num == s.split_chain_sequence.length
  let new_chain_id :=
    if is_c_terminal then s.split_chain_id ++ "A" else s.split_chain_id ++ "B"
  let modified_sequence :=
    if is_c_terminal then s.split_chain_sequence.dropLast else s.split_chain_sequence.drop 1
  let ligand_id := s.split_chain_id ++ "L"
  if modified_sequence = [] then ([], [])
  else
    ([create_protein_sequence new_chain_id modified_sequence],
     [if is_c_terminal then add_peptide_bond new_chain_id modified_sequence.length ligand_id 1
      else add_peptide_bond ligand_id 1 new_chain_id 1])

/-- The registry update of the terminal branch (source line 468). -/
def terminal_split_update (s : SplitArgs) (reg : Registry) : Option Registry :=
  let is_c_terminal := s.ligand_seq_num == s.split_chain_sequence.length
  let new_chain_id :=
    if is_c_terminal then s.split_chain_id ++ "A" else s.split_chain_id ++ "B"
  update_residue_mapping_for_terminal_split reg s.split_chain_id s.split_chain_id_orig
    s.ligand_seq_num s.ligand_seq_num_old s.split_chain_sequence.length is_c_terminal
    new_chain_id

/-- The internal branch of the structural split (source lines 475-486):
part A and part B entries (each omitted when empty) with their peptide
bonds to the ligand.  Python's seq[:p-1] is take (p-1), seq[p:] is drop p. -/
def internal_split_fragments (s : SplitArgs) : List ChainEntry × List BondRec :=
  let part_a_sequence := s.split_chain_sequence.take (s.ligand_seq_num - 1)
  let part_b_sequence := s.split_chain_sequence.drop s.ligand_seq_num
  let ligand_id := s.split_chain_id ++ "L"
  let part_a_id := s.split_chain_id ++ "A"
  let part_b_id := s.split_chain_id ++ "B"
  let a_part :=
    if part_a_sequence = [] then ([], [])
    else ([create_protein_sequence part_a_id part_a_sequence],
          [add_peptide_bond part_a_id part_a_sequence.length ligand_id 1])
  let b_part :=
    if part_b_sequence = [] then ([], [])
    else ([create_protein_sequence part_b_id part_b_sequence],
          [add_peptide_bond ligand_id 1 part_b_id 1])
  (a_part.1 ++ b_part.1, a_part.2 ++ b_part.2)

/-- The registry update of the internal branch (source line 472). -/
def internal_split_update (s : SplitArgs) (reg : Registry) : Option Registry :=
  update_residue_mapping_for_internal_split reg s.split_chain_id s.split_chain_id_orig
    s.ligand_seq_num s.ligand_seq_num_old s.split_chain_sequence.length

/-- The pass-through condition of source lines 490-494: every protein
entry other than the split chain, and every ligand/dna/rna entry, is kept. -/
def keeps_entry (split_chain_id : String) : ChainEntry → Bool
  | ChainEntry.protein p => p.id != split_chain_id
  | ChainEntry.ligand _ => true
  | ChainEntry.dna _ => true
  | ChainEntry.rna _ => true

/-- The assembly tail of process_chain_bond (source lines 489-517): keep
the other chain entries, emit the bridge-to-target bond using the
registry state left by the split's update, drop every copy of the bond
being resolved, and run correct_chain_and_resnum over the whole list. -/
def assemble_split (modified_json : Document) (atom1 atom2 : Atom) (m1 m2 : MappedRes)
    (s : SplitArgs) (ligand_entry : ChainEntry) (frags : List ChainEntry)
    (peptide_bonds : List BondRec) (reg2 : Registry) :
    Except String (Document × Registry) :=
  let ligand_id := s.split_chain_id ++ "L"
  let other_sequences := modified_json.sequences.filter (keeps_entry s.split_chain_id)
  match reg2 s.target_chain_id_orig s.target_seq_num_old with
  | none => Except.error "KeyError"
  | some target_mapped =>
    let bridge_bond : BondRec :=
      [⟨ligand_id, 1, s.ligand_atom_name⟩,
       ⟨target_mapped.modified_chain_id, target_mapped.modified_residue_num,
        s.target_atom_name⟩]
    let bond_new : BondRec :=
      [⟨m1.modified_chain_id, m1.modified_residue_num, atom1.name⟩,
       ⟨m2.modified_chain_id, m2.modified_residue_num, atom2.name⟩]
    let existing := modified_json.bondedAtomPairs.filter (fun b => b != bond_new)
    let new_bonded_pairs := peptide_bonds ++ bridge_bond :: existing
    match correct_chain_and_resnum new_bonded_pairs s.split_chain_id s.ligand_seq_num
        ligand_id (s.split_chain_id ++ "A") (s.split_chain_id ++ "B") with
    | Except.error e => Except.error e
    | Except.ok corrected =>
        Except.ok
          ({ sequences := ligand_entry :: (frags ++ other_sequences),
             bondedAtomPairs := corrected }, reg2)

/-- process_chain_bond after both endpoints resolved: pick the bridge,
index its residue character (Python seq[p-1]; an out-of-range position is
an IndexError), split, update the registry, assemble. -/
def process_chain_bond_core (modified_json : Document) (atom1 atom2 : Atom)
    (residue_mapping : Registry) (m1 m2 : MappedRes)
    (chain1_info chain2_info : ProteinEntry) : Except String (Document × Registry) :=
  let s := select_split atom1 atom2 m1 m2 chain1_info chain2_info
  match s.split_chain_sequence.get? (s.ligand_seq_num - 1) with
  | none => Except.error "IndexError"
  | some ligand_residue =>
    let ligand_entry := create_ligand_from_residue s.split_chain_id ligand_residue "L"
    let parts :=
      if s.is_ligand_terminal then terminal_split_fragments s else internal_split_fragments s
    match (if s.is_ligand_terminal then terminal_split_update s residue_mapping
           else internal_split_update s residue_mapping) with
    | none => Except.error "KeyError"
    | some reg2 =>
        assemble_split modified_json atom1 atom2 m1 m2 s ligand_entry parts.1 parts.2 reg2

/-- process_chain_bond: resolve both endpoints through the registry
(source lines 385-391; an absent key is a KeyError), fetch both chains'
entries, and either skip (missing chain, source lines 396-398, the
document is returned unmodified) or perform the split. -/
def process_chain_bond (modified_json : Document) (atom1 atom2 : Atom)
    (residue_mapping : Registry) : Except String (Document × Registry) :=
  match residue_mapping atom1.chain atom1.pos, residue_mapping atom2.chain atom2.pos with
  | some m1, some m2 =>
    match get_sequence_info modified_json m1.modified_chain_id,
          get_sequence_info modified_json m2.modified_chain_id with
    | some chain1_info, some chain2_info =>
        process_chain_bond_core modified_json atom1 atom2 residue_mapping m1 m2
          chain1_info chain2_info
    | _, _ => Except.ok (modified_json, residue_mapping)
  | _, _ => Except.error "KeyError"

/-- model_bond_with_ligand: deep-copies the document (a value copy here)
and processes the bond on the copy. -/
def model_bond_with_ligand (json_data : Document) (atom1 atom2 : Atom)
    (residue_mapping : Registry) : Except String (Document × Registry) :=
  let modified_json := json_data
  process_chain_bond modified_json atom1 atom2 residue_mapping

/-- The per-file loop of process_json_files: fold the bonds the classifier
found over the evolving document and registry.  Destructuring a record
without exactly two endpoints would be a Python unpacking error. -/
def resolve_bonds : List BondRec → Document → Registry → Except String (Document × Registry)
  | [], json_data, residue_mapping => Except.ok (json_data, residue_mapping)
  | bond :: rest, json_data, residue_mapping =>
    match bond with
    | [atom1, atom2] =>
      match model_bond_with_ligand json_data atom1 atom2 residue_mapping with
      | Except.error e => Except.error e
      | Except.ok (d, r) => resolve_bonds rest d r
    | _ => Except.error "ValueError"

/-- The document component of a run's outcome; `none` is an uncaught
exception. -/
def docOf (result : Except String (Document × Registry)) : Option Document :=
  match result with
  | Except.ok (d, _) => some d
  | Except.error _ => none

/-- One registry lookup out of a run's outcome. -/
def regOf (result : Except String (Document × Registry)) (c : String) (p : Nat) :
    Option MappedRes :=
  match result with
  | Except.ok (_, r) => r c p
  | Except.error _ => none

/-- One registry lookup out of an optional registry. -/
def regAt (o : Option Registry) (c : String) (p : Nat) : Option MappedRes :=
  match o with
  | none => none
  | some r => r c p

/-- The residue count a chain entry contributes: a protein its sequence
length, a ligand one residue (the bridges the script creates are single
converted amino acids), nucleic-acid entries nothing. -/
def entrySize : ChainEntry → Nat
  | ChainEntry.protein p => p.sequence.length
  | ChainEntry.ligand _ => 1
  | ChainEntry.dna _ => 0
  | ChainEntry.rna _ => 0

/-- The total residue count of a document. -/
def totalResidues (json_data : Document) : Nat :=
  (json_data.sequences.map entrySize).sum

/-- The sanity of one bond-resolution step, as every reachable run of the
script satisfies it: the document's protein ids are distinct, and when
both endpoints resolve to present chains the selected bridge position is
at least 1 (registry values are 1-based). -/
def step_sane (json_data : Document) (atom1 atom2 : Atom) (reg : Registry) : Bool :=
  decide (protein_ids json_data.sequences).Nodup &&
  match reg atom1.chain atom1.pos, reg atom2.chain atom2.pos with
  | some m1, some m2 =>
    match get_sequence_info json_data m1.modified_chain_id,
          get_sequence_info json_data m2.modified_chain_id with
    | some i1, some i2 => 1 ≤ (select_split atom1 atom2 m1 m2 i1 i2).ligand_seq_num
    | _, _ => true
  | _, _ => true

/-- step_sane holding at every step a run of resolve_bonds goes through. -/
def steps_sane : List BondRec → Document → Registry → Bool
  | [], _, _ => true
  | bond :: rest, json_data, reg =>
    match bond with
    | [atom1, atom2] =>
      step_sane json_data atom1 atom2 reg &&
      match model_bond_with_ligand json_data atom1 atom2 reg with
      | Except.error _ => true
      | Except.ok (d, r) => steps_sane rest d r
    | _ => true

/-- Observer following the spec's words for the round-trip invariant: the
fragment and ligand entries one split produces (empty when the step skips
or fails before splitting). -/
def produced_entries_of_step (json_data : Document) (atom1 atom2 : Atom)
    (reg : Registry) : List ChainEntry :=
  match reg atom1.chain atom1.pos, reg atom2.chain atom2.pos with
  | some m1, some m2 =>
    match get_sequence_info json_data m1.modified_chain_id,
          get_sequence_info json_data m2.modified_chain_id with
    | some i1, some i2 =>
      let s := select_split atom1 atom2 m1 m2 i1 i2
      match s.split_chain_sequence.get? (s.ligand_seq_num - 1) with
      | some ligand_residue =>
          create_ligand_from_residue s.split_chain_id ligand_residue "L" ::
            (if s.is_ligand_terminal then terminal_split_fragments s
             else internal_split_fragments s).1
      | none => []
    | _, _ => []
  | _, _ => []

/-- Observer following the spec's words: resolve_bonds, also accumulating
every fragment and ligand entry ever produced across the run. -/
def resolve_bonds_produced :
    List BondRec → Document → Registry → Except String (Document × Registry × List ChainEntry)
  | [], json_data, reg => Except.ok (json_data, reg, [])
  | bond :: rest, json_data, reg =>
    match bond with
    | [atom1, atom2] =>
      let produced := produced_entries_of_step json_data atom1 atom2 reg
      match model_bond_with_ligand json_data atom1 atom2 reg with
      | Except.error e => Except.error e
      | Except.ok (d, r) =>
        match resolve_bonds_produced rest d r with
        | Except.error e => Except.error e
        | Except.ok (d2, r2, ps) => Except.ok (d2, r2, produced ++ ps)
    | _ => Except.error "ValueError"

/-- A store of document objects: `mem r` is the object reference `r` names,
references below `next` are allocated.  This models which Python object a
mutation lands on. -/
structure Store where
  next : Nat
  mem : Nat → Document

/-- Allocating a fresh object holding a copy of a document value (what
`deepcopy` does). -/
def Store.alloc (σ : Store) (d : Document) : Store × Nat :=
  ({ next := σ.next + 1, mem := fun r => if r = σ.next then d else σ.mem r }, σ.next)

/-- process_chain_bond acting on the object named by `r`: it reads the
document there and writes the transformed document back to the same
object (all its mutations land on `r`). -/
def process_chain_bond_ref (σ : Store) (r : Nat) (atom1 atom2 : Atom)
    (reg : Registry) : Except String (Store × Registry) :=
  match process_chain_bond (σ.mem r) atom1 atom2 reg with
  | Except.error e => Except.error e
  | Except.ok (d, reg2) =>
      Except.ok ({ next := σ.next, mem := fun q => if q = r then d else σ.mem q }, reg2)

/-- model_bond_with_ligand at the object level, as the source writes it:
`modified_json = deepcopy(json_data)` allocates a fresh object, and
process_chain_bond is run against that fresh object, never against the
caller's object `r`. -/
def model_bond_with_ligand_ref (σ : Store) (r : Nat) (atom1 atom2 : Atom)
    (reg : Registry) : Except String (Store × Nat × Registry) :=
  let allocated := σ.alloc (σ.mem r)
  match process_chain_bond_ref allocated.1 allocated.2 atom1 atom2 reg with
  | Except.error e => Except.error e
  | Except.ok (σ2, reg2) => Except.ok (σ2, allocated.2, reg2)

/-- The document object `q` holds after an object-level call, when the
call succeeds. -/
def ref_result_doc_at (result : Except String (Store × Nat × Registry)) (q : Nat) :
    Option Document :=
  match result with
  | Except.ok (σ, _, _) => some (σ.mem q)
  | Except.error _ => none

/-- Whether an object-level call succeeds. -/
def ref_result_ok (result : Except String (Store × Nat × Registry)) : Bool :=
  match result with
  | Except.ok _ => true
  | Except.error _ => false

/-- The spec's literal single-bond N-terminal example: chain A is the
5-residue protein MKVLA, chain B another protein, and the one bond links
(A,1,N) to (B,3,CA). -/
def docC1 : Document :=
  { sequences := [ChainEntry.protein ⟨"A", "MKVLA".data⟩,
                  ChainEntry.protein ⟨"B", "CCCCC".data⟩],
    bondedAtomPairs := [[⟨"A", 1, "N"⟩, ⟨"B", 3, "CA"⟩]] }

def C1_atom1 : Atom := ⟨"A", 1, "N"⟩

def C1_atom2 : Atom := ⟨"B", 3, "CA"⟩

/-- Resolving the example's one bond. -/
def C1_run : Except String (Document × Registry) :=
  model_bond_with_ligand docC1 C1_atom1 C1_atom2 (initialize_residue_mapping docC1)

/-- The document the code produces for the example. -/
def C1_expected : Document :=
  { sequences := [ChainEntry.ligand ⟨"AL", ["MET"]⟩,
                  ChainEntry.protein ⟨"AB", "KVLA".data⟩,
                  ChainEntry.protein ⟨"B", "CCCCC".data⟩],
    bondedAtomPairs := [[⟨"AL", 1, "C"⟩, ⟨"AB", 1, "N"⟩],
                        [⟨"AL", 1, "N"⟩, ⟨"B", 3, "CA"⟩]] }

/-- The registry state of a chain A of original length 6 after an earlier
N-terminal split: residue 1 became ligand AL, residues 2..6 are now chain
AB at positions 1..5. -/
def regC2 : Registry := fun c p =>
  if c = "A" then
    if p = 1 then some ⟨"AL", 1⟩
    else if 2 ≤ p ∧ p ≤ 6 then some ⟨"AB", p - 1⟩
    else none
  else none

/-- The C-terminal registry update for the second split of that chain:
current chain AB, current position 5, original position 6, current length
5, new fragment ABA. -/
def C2_result : Option Registry :=
  update_residue_mapping_for_terminal_split regC2 "AB" "A" 5 6 5 true "ABA"

/-- An end-to-end document reaching the same state: chain A MKVLAG split
first at its N-terminus, then at original residue 6 (current C-terminus
of the fragment). -/
def docC2 : Document :=
  { sequences := [ChainEntry.protein ⟨"A", "MKVLAG".data⟩,
                  ChainEntry.protein ⟨"B", "CCC".data⟩],
    bondedAtomPairs := [[⟨"A", 1, "N"⟩, ⟨"B", 1, "CA"⟩],
                        [⟨"A", 6, "C"⟩, ⟨"B", 3, "CB"⟩]] }

def C2_run : Except String (Document × Registry) :=
  resolve_bonds [[⟨"A", 1, "N"⟩, ⟨"B", 1, "CA"⟩], [⟨"A", 6, "C"⟩, ⟨"B", 3, "CB"⟩]]
    docC2 (initialize_residue_mapping docC2)

/-- A document whose split chain is not the first entry: chain B comes
first, the bond splits chain A at its N-terminus. -/
def docC3 : Document :=
  { sequences := [ChainEntry.protein ⟨"B", "CC".data⟩,
                  ChainEntry.protein ⟨"A", "MK".data⟩],
    bondedAtomPairs := [[⟨"A", 1, "N"⟩, ⟨"B", 2, "CA"⟩]] }

def C3_atom1 : Atom := ⟨"A", 1, "N"⟩

def C3_atom2 : Atom := ⟨"B", 2, "CA"⟩

def C3_run : Except String (Document × Registry) :=
  model_bond_with_ligand docC3 C3_atom1 C3_atom2 (initialize_residue_mapping docC3)

/-- The document the code produces for docC3: the new entries are placed
at the head of the list, in front of the untouched chain B entry. -/
def C3_expected : Document :=
  { sequences := [ChainEntry.ligand ⟨"AL", ["MET"]⟩,
                  ChainEntry.protein ⟨"AB", "K".data⟩,
                  ChainEntry.protein ⟨"B", "CC".data⟩],
    bondedAtomPairs := [[⟨"AL", 1, "C"⟩, ⟨"AB", 1, "N"⟩],
                        [⟨"AL", 1, "N"⟩, ⟨"B", 2, "CA"⟩]] }

/-- Two sequential intra-chain bonds on one 5-residue chain: the first
splits A at residue 1, the second splits the fragment AB at its first
residue (original residue 2). -/
def docC8 : Document :=
  { sequences := [ChainEntry.protein ⟨"A", "MKVLA".data⟩],
    bondedAtomPairs := [[⟨"A", 1, "N"⟩, ⟨"A", 5, "C"⟩],
                        [⟨"A", 2, "CA"⟩, ⟨"A", 5, "CB"⟩]] }

def C8_run : Except String (Document × Registry × List ChainEntry) :=
  resolve_bonds_produced
    [[⟨"A", 1, "N"⟩, ⟨"A", 5, "C"⟩], [⟨"A", 2, "CA"⟩, ⟨"A", 5, "CB"⟩]]
    docC8 (initialize_residue_mapping docC8)

/-- All chain entries ever produced across the docC8 run. -/
def C8_produced : List ChainEntry :=
  match C8_run with
  | Except.ok (_, _, ps) => ps
  | Except.error _ => []

/-- The summed residue lengths of everything ever produced for chain A. -/
def C8_produced_total : Nat := (C8_produced.map entrySize).sum

/-- Whether the docC8 run succeeded. -/
def C8_run_ok : Bool :=
  match C8_run with
  | Except.ok _ => true
  | Except.error _ => false

/-- A document holding one resolvable protein-protein bond and one
malformed record of a single endpoint. -/
def docC10 : Document :=
  { sequences := [ChainEntry.protein ⟨"A", "MK".data⟩,
                  ChainEntry.protein ⟨"B", "GG".data⟩],
    bondedAtomPairs := [[⟨"A", 1, "N"⟩, ⟨"B", 1, "CA"⟩], [⟨"A", 2, "C"⟩]] }

/-- The malformed record of docC10. -/
def C10_mal : BondRec := [⟨"A", 2, "C"⟩]

/-- A registry resolving residue (A,1) to a chain id Z that no protein
entry of the document carries (the missing-chain skip case). -/
def regC6 : Registry := fun c p =>
  if c = "A" ∧ p = 1 then some ⟨"Z", 1⟩ else none

def docC6 : Document :=
  { sequences := [ChainEntry.protein ⟨"A", "MK".data⟩], bondedAtomPairs := [] }

/-- A one-object store whose only document is docC1. -/
def C9_store : Store := { next := 1, mem := fun _ => docC1 }

/-- Well-formed bond records for exercising the rewriter. -/
def C5_pairs : List BondRec :=
  [[⟨"A", 2, "N"⟩, ⟨"B", 3, "CA"⟩], [⟨"A", 5, "C"⟩, ⟨"A", 7, "CB"⟩]]

/-- A Bool gate for the steps of one split that precede the bond
rewriting: the bridge residue indexes into its sequence, the registry
update finds all its keys, and the target's registry entry exists. -/
def pre_rewriter_steps_ok (reg : Registry) (atom1 atom2 : Atom) (m1 m2 : MappedRes)
    (i1 i2 : ProteinEntry) : Bool :=
  let s := select_split atom1 atom2 m1 m2 i1 i2
  match s.split_chain_sequence.get? (s.ligand_seq_num - 1) with
  | none => false
  | some _ =>
    match (if s.is_ligand_terminal then terminal_split_update s reg
           else internal_split_update s reg) with
    | none => false
    | some reg2 =>
      match reg2 s.target_chain_id_orig s.target_seq_num_old with
      | none => false
      | some _ => true

theorem list_length_two {α : Type} (l : List α) (h : l.length = 2) :
    ∃ a b, l = [a, b] := by
  match l, h with
  | [a, b], _ => exact ⟨a, b, rfl⟩

theorem correct_chain_and_resnum_eq_map (pairs : List BondRec) (split_chain_id : String)
    (ligand_seq_num : Nat) (ligand_id part_a_id part_b_id : String)
    (h : ∀ r ∈ pairs, r.length = 2) :
    correct_chain_and_resnum pairs split_chain_id ligand_seq_num ligand_id part_a_id
        part_b_id =
      Except.ok (pairs.map
        (fun r => r.map (rewrite_atom split_chain_id ligand_seq_num ligand_id part_a_id
          part_b_id))) := by
  induction pairs with
  | nil => simp [correct_chain_and_resnum]
  | cons head tail ih =>
    obtain ⟨a, b, rfl⟩ := list_length_two head (h head (List.mem_cons_self _ _))
    have htail := ih (fun r hr => h r (List.mem_cons_of_mem _ hr))
    simp [correct_chain_and_resnum, htail]

theorem correct_chain_and_resnum_malformed (pairs : List BondRec) (split_chain_id : String)
    (ligand_seq_num : Nat) (ligand_id part_a_id part_b_id : String)
    (h : ∃ r ∈ pairs, r.length ≠ 2) :
    correct_chain_and_resnum pairs split_chain_id ligand_seq_num ligand_id part_a_id
        part_b_id =
      Except.error "Bonded atom pair must have exactly two elements" := by
  induction pairs with
  | nil => simp at h
  | cons head tail ih =>
    rcases head with _ | ⟨a, _ | ⟨b, _ | ⟨c, t⟩⟩⟩
    · simp [correct_chain_and_resnum]
    · simp [correct_chain_and_resnum]
    · obtain ⟨r, hr, hlen⟩ := h
      rcases List.mem_cons.mp hr with rfl | hr2
      · simp at hlen
      · have := ih ⟨r, hr2, hlen⟩
        simp [correct_chain_and_resnum, this]
    · simp [correct_chain_and_resnum]

/-- C7: correct_chain_and_resnum raises its fatal error exactly when some
record of its input does not have two endpoints, and then produces no
rewritten bond list. -/
theorem C7_malformed_fatal (pairs : List BondRec) (split_chain_id : String)
    (ligand_seq_num : Nat) (ligand_id part_a_id part_b_id : String) :
    (correct_chain_and_resnum pairs split_chain_id ligand_seq_num ligand_id part_a_id
        part_b_id).toOption = none ↔
      ∃ r ∈ pairs, r.length ≠ 2 := by
  constructor
  · intro h
    by_contra hc
    push_neg at hc
    rw [correct_chain_and_resnum_eq_map pairs split_chain_id ligand_seq_num ligand_id
      part_a_id part_b_id hc] at h
    simp [Except.toOption] at h
  · intro h
    rw [correct_chain_and_resnum_malformed pairs split_chain_id ligand_seq_num ligand_id
      part_a_id part_b_id h]
    rfl

/-- C5: for well-formed input, the rewriter maps every endpoint of every
record in place (record order and endpoint order preserved, atom names
untouched), leaving foreign chains alone, sending the split position to
the ligand at 1, earlier positions to fragment A unchanged, and later
positions to fragment B shifted down by the split position. -/
theorem C5_rewriter (pairs : List BondRec) (split_chain_id : String)
    (ligand_seq_num : Nat) (ligand_id part_a_id part_b_id : String)
    (h : ∀ r ∈ pairs, r.length = 2) :
    correct_chain_and_resnum pairs split_chain_id ligand_seq_num ligand_id part_a_id
        part_b_id =
      Except.ok (pairs.map
        (fun r => r.map (rewrite_atom split_chain_id ligand_seq_num ligand_id part_a_id
          part_b_id))) ∧
    (∀ (c : String) (s : Nat) (a : String),
      (c ≠ split_chain_id →
        rewrite_atom split_chain_id ligand_seq_num ligand_id part_a_id part_b_id ⟨c, s, a⟩ =
          ⟨c, s, a⟩) ∧
      (c = split_chain_id → s = ligand_seq_num →
        rewrite_atom split_chain_id ligand_seq_num ligand_id part_a_id part_b_id ⟨c, s, a⟩ =
          ⟨ligand_id, 1, a⟩) ∧
      (c = split_chain_id → s < ligand_seq_num →
        rewrite_atom split_chain_id ligand_seq_num ligand_id part_a_id part_b_id ⟨c, s, a⟩ =
          ⟨part_a_id, s, a⟩) ∧
      (c = split_chain_id → ligand_seq_num < s →
        rewrite_atom split_chain_id ligand_seq_num ligand_id part_a_id part_b_id ⟨c, s, a⟩ =
          ⟨part_b_id, s - ligand_seq_num, a⟩)) := by
  refine ⟨correct_chain_and_resnum_eq_map pairs split_chain_id ligand_seq_num ligand_id
    part_a_id part_b_id h, ?_⟩
  intro c s a
  refine ⟨?_, ?_, ?_, ?_⟩
  · intro hc
    simp [rewrite_atom, ccr_helper, hc]
  · intro hc hs
    simp [rewrite_atom, ccr_helper, hc, hs]
  · intro hc hs
    simp only [rewrite_atom, ccr_helper, hc, if_true]
    rw [if_neg (Nat.ne_of_lt hs), if_pos hs]
  · intro hc hs
    simp only [rewrite_atom, ccr_helper, hc, if_true]
    rw [if_neg (Nat.ne_of_gt hs), if_neg (Nat.not_lt.mpr (Nat.le_of_lt hs))]

/-- Witness for C5 at a concrete record list. -/
theorem C5_rewriter_witness :
    correct_chain_and_resnum C5_pairs "A" 5 "AL" "AA" "AB" =
      Except.ok (C5_pairs.map (fun r => r.map (rewrite_atom "A" 5 "AL" "AA" "AB"))) :=
  (C5_rewriter C5_pairs "A" 5 "AL" "AA" "AB" (by decide)).1

/-- C4: process_chain_bond selects endpoint 1 as the bridge exactly when
endpoint 1 is terminal in its current chain (current position 1 or the
last position) or endpoint 2 is not terminal; and for the intra-chain
bond between residue 1 and residue 5 of a 5-residue chain, where both
endpoints are terminal, endpoint 1 is selected. -/
theorem C4_selection :
    (∀ (atom1 atom2 : Atom) (m1 m2 : MappedRes) (i1 i2 : ProteinEntry),
      (select_split atom1 atom2 m1 m2 i1 i2).use_chain1 = true ↔
        (m1.modified_residue_num = 1 ∨ m1.modified_residue_num = i1.sequence.length ∨
          ¬(m2.modified_residue_num = 1 ∨ m2.modified_residue_num = i2.sequence.length))) ∧
    (select_split ⟨"A", 1, "N"⟩ ⟨"A", 5, "C"⟩ ⟨"A", 1⟩ ⟨"A", 5⟩
        ⟨"A", "MKVLA".data⟩ ⟨"A", "MKVLA".data⟩).use_chain1 = true := by
  constructor
  · intro atom1 atom2 m1 m2 i1 i2
    simp only [select_split, is_terminal_residue]
    split
    next hcond =>
      simp only [Bool.or_eq_true, Bool.not_eq_true', Bool.or_eq_false_iff, beq_iff_eq,
        beq_eq_false_iff_ne] at hcond
      simp only [true_iff]
      tauto
    next hcond =>
      simp only [Bool.or_eq_true, Bool.not_eq_true', Bool.or_eq_false_iff, beq_iff_eq,
        beq_eq_false_iff_ne] at hcond
      push_neg at hcond
      simp only [false_iff]
      tauto
  · decide

/-- C1 counterexample: on the spec's literal example the code does emit a
peptide bond between the ligand and the fragment, but with the atoms the
other way around — the record the claim requires, with atom N on the
ligand and atom C on the fragment, is not in the output bond list. -/
theorem C1_counterexample :
    docOf C1_run = some C1_expected ∧
    C1_expected.bondedAtomPairs.contains [⟨"AL", 1, "N"⟩, ⟨"AB", 1, "C"⟩] = false := by
  constructor
  · decide
  · decide

/-- C1 amended: on the spec's literal example the output contains the
ligand AL (MET) and the protein AB with sequence KVLA, no protein chain A
survives, and the bond list holds the peptide bond
((AL,1,C),(AB,1,N)) — the code's N-terminal rule is
(ligandId,1,C)-(fragmentId,1,N) — together with the rewritten original
bond ((AL,1,N),(B,3,CA)). -/
theorem C1_amended :
    docOf C1_run = some C1_expected ∧
    ChainEntry.ligand ⟨"AL", ["MET"]⟩ ∈ C1_expected.sequences ∧
    ChainEntry.protein ⟨"AB", "KVLA".data⟩ ∈ C1_expected.sequences ∧
    (protein_ids C1_expected.sequences).contains "A" = false ∧
    ([⟨"AL", 1, "C"⟩, ⟨"AB", 1, "N"⟩] : BondRec) ∈ C1_expected.bondedAtomPairs ∧
    ([⟨"AL", 1, "N"⟩, ⟨"B", 3, "CA"⟩] : BondRec) ∈ C1_expected.bondedAtomPairs := by
  refine ⟨by decide, by decide, by decide, by decide, by decide, by decide⟩

/-- C2: evaluating the C-terminal registry update at a chain whose current
numbering differs from its original numbering (chain A of length 6,
already split once at its N-terminus, now split at current position 5 =
original position 6).  The code leaves original residue 6 stale at
(AB,5) and overwrites original residue 5 with the ligand (ABL,1); the
claim requires residue 6 to map to (ABL,1) and residue 5 to (ABA,4).
The same state is reached end to end by resolving docC2's two bonds in
order: afterwards the registry still maps (A,6) to chain AB although no
chain AB remains in the document. -/
theorem C2_code_eval :
    regAt C2_result "A" 6 = some ⟨"AB", 5⟩ ∧
    regAt C2_result "A" 5 = some ⟨"ABL", 1⟩ ∧
    regAt C2_result "A" 4 = some ⟨"ABA", 3⟩ ∧
    (regAt C2_result "A" 6 == some ⟨"ABL", 1⟩) = false ∧
    (regAt C2_result "A" 5 == some ⟨"ABA", 4⟩) = false ∧
    regOf C2_run "A" 6 = some ⟨"AB", 5⟩ ∧
    regOf C2_run "A" 5 = some ⟨"ABL", 1⟩ ∧
    ((docOf C2_run).map (fun d2 => (protein_ids d2.sequences).contains "AB")) =
      some false := by
  refine ⟨by decide, by decide, by decide, by decide, by decide, by decide, by decide,
    by decide⟩

/-- C3 counterexample: when the split chain is not the first entry, the
new ligand and fragment are NOT inserted at the removed entry's position:
the untouched chain B was first in the input but the output starts with
the new ligand AL instead. -/
theorem C3_counterexample :
    docOf C3_run = some C3_expected ∧
    C3_expected.sequences.head? = some (ChainEntry.ligand ⟨"AL", ["MET"]⟩) ∧
    (C3_expected.sequences.head? == some (ChainEntry.protein ⟨"B", "CC".data⟩)) = false := by
  refine ⟨by decide, by decide, by decide⟩

/-- C8 counterexample: two sequential splits of the one 5-residue chain A
produce, over the whole run, fragments AB (4 residues) and ABB (3) and
ligands AL and ABL (1 each) — summing the lengths of everything ever
produced gives 9, not the chain's original length 5, because the
4-residue fragment AB is itself consumed by the second split. -/
theorem C8_counterexample :
    C8_run_ok = true ∧
    C8_produced_total = 9 ∧
    (C8_produced_total == ("MKVLA".data).length) = false := by
  refine ⟨by decide, by decide, by decide⟩

/-- C6: when either endpoint's registry-resolved chain id names no protein
entry of the document, the bond is skipped: the call returns the document
and registry unchanged, and the per-file loop goes on to the remaining
bonds exactly as if the bond were not there. -/
theorem C6_missing_chain (doc : Document) (atom1 atom2 : Atom) (reg : Registry)
    (m1 m2 : MappedRes) (rest : List BondRec)
    (h1 : reg atom1.chain atom1.pos = some m1)
    (h2 : reg atom2.chain atom2.pos = some m2)
    (h3 : get_sequence_info doc m1.modified_chain_id = none ∨
          get_sequence_info doc m2.modified_chain_id = none) :
    model_bond_with_ligand doc atom1 atom2 reg = Except.ok (doc, reg) ∧
    resolve_bonds ([atom1, atom2] :: rest) doc reg = resolve_bonds rest doc reg := by
  have hmodel : model_bond_with_ligand doc atom1 atom2 reg = Except.ok (doc, reg) := by
    unfold model_bond_with_ligand process_chain_bond
    simp only [h1, h2]
    rcases h3 with h3 | h3
    · rcases hB : get_sequence_info doc m2.modified_chain_id with _ | i2 <;>
        simp only [h3, hB]
    · rcases hA : get_sequence_info doc m1.modified_chain_id with _ | i1 <;>
        simp only [h3, hA]
  refine ⟨hmodel, ?_⟩
  simp [resolve_bonds, hmodel]

/-- Witness for C6: a registry pointing residue (A,1) at the absent chain
Z makes the call return its inputs unchanged and the loop skip ahead. -/
theorem C6_missing_chain_witness :
    model_bond_with_ligand docC6 ⟨"A", 1, "N"⟩ ⟨"A", 1, "SG"⟩ regC6 =
      Except.ok (docC6, regC6) ∧
    resolve_bonds [[⟨"A", 1, "N"⟩, ⟨"A", 1, "SG"⟩], [⟨"A", 1, "N"⟩, ⟨"A", 1, "SG"⟩]]
        docC6 regC6 =
      resolve_bonds [[⟨"A", 1, "N"⟩, ⟨"A", 1, "SG"⟩]] docC6 regC6 :=
  C6_missing_chain docC6 ⟨"A", 1, "N"⟩ ⟨"A", 1, "SG"⟩ regC6 ⟨"Z", 1⟩ ⟨"Z", 1⟩
    [[⟨"A", 1, "N"⟩, ⟨"A", 1, "SG"⟩]] (by decide) (by decide) (Or.inl (by decide))

/-- C9: at the object level, model_bond_with_ligand allocates a fresh copy
of the caller's document object and performs every edit there: after a
successful call the caller's object still holds its old value, and the
fresh object holds exactly what the pure transformation computes. -/
theorem C9_frame (σ : Store) (r : Nat) (atom1 atom2 : Atom) (reg : Registry)
    (h : r < σ.next)
    (hok : ref_result_ok (model_bond_with_ligand_ref σ r atom1 atom2 reg) = true) :
    ref_result_doc_at (model_bond_with_ligand_ref σ r atom1 atom2 reg) r =
      some (σ.mem r) ∧
    ref_result_doc_at (model_bond_with_ligand_ref σ r atom1 atom2 reg) σ.next =
      docOf (process_chain_bond (σ.mem r) atom1 atom2 reg) := by
  have hne : r ≠ σ.next := Nat.ne_of_lt h
  unfold model_bond_with_ligand_ref Store.alloc process_chain_bond_ref at hok ⊢
  dsimp only at hok ⊢
  have hread : (if σ.next = σ.next then σ.mem r else σ.mem σ.next) = σ.mem r :=
    if_pos rfl
  rw [hread] at hok ⊢
  rcases hp : process_chain_bond (σ.mem r) atom1 atom2 reg with e | ⟨d, reg2⟩
  · rw [hp] at hok
    simp [ref_result_ok] at hok
  · simp only [hp]
    constructor
    · simp [ref_result_doc_at, hne]
    · simp [ref_result_doc_at, docOf]

/-- Witness for C9 on the one-object store holding docC1. -/
theorem C9_frame_witness :
    ref_result_doc_at (model_bond_with_ligand_ref C9_store 0 C1_atom1 C1_atom2
        (initialize_residue_mapping docC1)) 0 = some docC1 ∧
    ref_result_doc_at (model_bond_with_ligand_ref C9_store 0 C1_atom1 C1_atom2
        (initialize_residue_mapping docC1)) 1 =
      docOf (process_chain_bond docC1 C1_atom1 C1_atom2
        (initialize_residue_mapping docC1)) :=
  C9_frame C9_store 0 C1_atom1 C1_atom2 (initialize_residue_mapping docC1)
    (by decide) (by decide)

/-- C10: the classifier silently drops every record that does not have
exactly two endpoints (such a record is never a protein-protein bond and
classification is a total function), yet once any qualifying bond of the
same document is resolved through the split path, that record reaches the
rewriter and triggers the fatal malformed-bond error. -/
theorem C10_classifier_vs_rewriter :
    (∀ (doc : Document) (r : BondRec), r ∈ doc.bondedAtomPairs → r.length ≠ 2 →
      r ∉ find_protein_protein_bonds doc) ∧
    (∀ (doc : Document) (atom1 atom2 : Atom) (reg : Registry) (m1 m2 : MappedRes)
        (i1 i2 : ProteinEntry) (r : BondRec),
      r ∈ doc.bondedAtomPairs → r.length ≠ 2 →
      reg atom1.chain atom1.pos = some m1 →
      reg atom2.chain atom2.pos = some m2 →
      get_sequence_info doc m1.modified_chain_id = some i1 →
      get_sequence_info doc m2.modified_chain_id = some i2 →
      pre_rewriter_steps_ok reg atom1 atom2 m1 m2 i1 i2 = true →
      process_chain_bond doc atom1 atom2 reg =
        Except.error "Bonded atom pair must have exactly two elements") := by
  constructor
  · intro doc r hr hlen hmem
    simp only [find_protein_protein_bonds] at hmem
    obtain ⟨-, hpred⟩ := List.mem_filter.mp hmem
    rcases r with _ | ⟨a, _ | ⟨b, _ | ⟨c, t⟩⟩⟩ <;> simp_all
  · intro doc atom1 atom2 reg m1 m2 i1 i2 r hr hlen h1 h2 h3 h4 h7
    unfold process_chain_bond
    simp only [h1, h2, h3, h4]
    simp only [process_chain_bond_core]
    simp only [pre_rewriter_steps_ok] at h7
    rcases hg : (select_split atom1 atom2 m1 m2 i1 i2).split_chain_sequence.get?
        ((select_split atom1 atom2 m1 m2 i1 i2).ligand_seq_num - 1) with _ | lr
    · simp only [hg] at h7
      exact Bool.noConfusion h7
    · simp only [hg] at h7 ⊢
      rcases hu : (if (select_split atom1 atom2 m1 m2 i1 i2).is_ligand_terminal then
          terminal_split_update (select_split atom1 atom2 m1 m2 i1 i2) reg
        else internal_split_update (select_split atom1 atom2 m1 m2 i1 i2) reg) with
        _ | reg2
      · simp only [hu] at h7
        exact Bool.noConfusion h7
      · simp only [hu] at h7 ⊢
        simp only [assemble_split]
        rcases ht : reg2 (select_split atom1 atom2 m1 m2 i1 i2).target_chain_id_orig
            (select_split atom1 atom2 m1 m2 i1 i2).target_seq_num_old with _ | tm
        · simp only [ht] at h7
          exact Bool.noConfusion h7
        · simp only [ht]
          have hrmem : r ∈ doc.bondedAtomPairs.filter
              (fun b => b != [(⟨m1.modified_chain_id, m1.modified_residue_num, atom1.name⟩ : Atom),
                ⟨m2.modified_chain_id, m2.modified_residue_num, atom2.name⟩]) := by
            refine List.mem_filter.mpr ⟨hr, ?_⟩
            refine bne_iff_ne.mpr (fun he => hlen ?_)
            rw [he]
            rfl
          rw [correct_chain_and_resnum_malformed _ _ _ _ _ _
            ⟨r, List.mem_append_right _ (List.mem_cons_of_mem _ hrmem), hlen⟩]

theorem process_core_ok_sequences (doc : Document) (atom1 atom2 : Atom) (reg : Registry)
    (m1 m2 : MappedRes) (i1 i2 : ProteinEntry) (d : Document)
    (h5 : docOf (process_chain_bond_core doc atom1 atom2 reg m1 m2 i1 i2) = some d) :
    ∃ lr, (select_split atom1 atom2 m1 m2 i1 i2).split_chain_sequence.get?
        ((select_split atom1 atom2 m1 m2 i1 i2).ligand_seq_num - 1) = some lr ∧
      d.sequences =
        create_ligand_from_residue (select_split atom1 atom2 m1 m2 i1 i2).split_chain_id lr
            "L" ::
          ((if (select_split atom1 atom2 m1 m2 i1 i2).is_ligand_terminal then
              terminal_split_fragments (select_split atom1 atom2 m1 m2 i1 i2)
            else internal_split_fragments (select_split atom1 atom2 m1 m2 i1 i2)).1 ++
            doc.sequences.filter
              (keeps_entry (select_split atom1 atom2 m1 m2 i1 i2).split_chain_id)) := by
  simp only [process_chain_bond_core] at h5
  split at h5
  · simp [docOf] at h5
  · rename_i lr hg
    split at h5
    · simp [docOf] at h5
    · rename_i reg2 hu
      simp only [assemble_split] at h5
      split at h5
      · simp [docOf] at h5
      · rename_i tm ht
        split at h5
        · simp [docOf] at h5
        · rename_i corrected hc
          simp only [docOf, Option.some.injEq] at h5
          subst h5
          exact ⟨lr, hg, rfl⟩

/-- C3 amended: after every split the output chain-entry list is the new
ligand entry first, then the new fragment entries, then every other entry
of the input (other proteins, pre-existing ligands, nucleic-acid chains)
unchanged and in its original relative order; exactly the split chain's
entry is removed.  (The new entries sit at the head of the list, not at
the removed entry's former position.) -/
theorem C3_amended (doc : Document) (atom1 atom2 : Atom) (reg : Registry)
    (m1 m2 : MappedRes) (i1 i2 : ProteinEntry) (d : Document)
    (h1 : reg atom1.chain atom1.pos = some m1)
    (h2 : reg atom2.chain atom2.pos = some m2)
    (h3 : get_sequence_info doc m1.modified_chain_id = some i1)
    (h4 : get_sequence_info doc m2.modified_chain_id = some i2)
    (h5 : docOf (process_chain_bond doc atom1 atom2 reg) = some d) :
    ∃ lr, (select_split atom1 atom2 m1 m2 i1 i2).split_chain_sequence.get?
        ((select_split atom1 atom2 m1 m2 i1 i2).ligand_seq_num - 1) = some lr ∧
      d.sequences =
        create_ligand_from_residue (select_split atom1 atom2 m1 m2 i1 i2).split_chain_id lr
            "L" ::
          ((if (select_split atom1 atom2 m1 m2 i1 i2).is_ligand_terminal then
              terminal_split_fragments (select_split atom1 atom2 m1 m2 i1 i2)
            else internal_split_fragments (select_split atom1 atom2 m1 m2 i1 i2)).1 ++
            doc.sequences.filter
              (keeps_entry (select_split atom1 atom2 m1 m2 i1 i2).split_chain_id)) := by
  have h5c : docOf (process_chain_bond_core doc atom1 atom2 reg m1 m2 i1 i2) = some d := by
    unfold process_chain_bond at h5
    simp only [h1, h2, h3, h4] at h5
    exact h5
  exact process_core_ok_sequences doc atom1 atom2 reg m1 m2 i1 i2 d h5c

/-- Witness for C3 on docC3: the split of chain A places the ligand AL and
fragment AB at the head, with chain B passing through behind them. -/
theorem C3_amended_witness :
    ∃ lr, (select_split C3_atom1 C3_atom2 ⟨"A", 1⟩ ⟨"B", 2⟩ ⟨"A", "MK".data⟩
        ⟨"B", "CC".data⟩).split_chain_sequence.get?
        ((select_split C3_atom1 C3_atom2 ⟨"A", 1⟩ ⟨"B", 2⟩ ⟨"A", "MK".data⟩
          ⟨"B", "CC".data⟩).ligand_seq_num - 1) = some lr ∧
      C3_expected.sequences =
        create_ligand_from_residue (select_split C3_atom1 C3_atom2 ⟨"A", 1⟩ ⟨"B", 2⟩
            ⟨"A", "MK".data⟩ ⟨"B", "CC".data⟩).split_chain_id lr "L" ::
          ((if (select_split C3_atom1 C3_atom2 ⟨"A", 1⟩ ⟨"B", 2⟩ ⟨"A", "MK".data⟩
              ⟨"B", "CC".data⟩).is_ligand_terminal then
              terminal_split_fragments (select_split C3_atom1 C3_atom2 ⟨"A", 1⟩ ⟨"B", 2⟩
                ⟨"A", "MK".data⟩ ⟨"B", "CC".data⟩)
            else internal_split_fragments (select_split C3_atom1 C3_atom2 ⟨"A", 1⟩ ⟨"B", 2⟩
                ⟨"A", "MK".data⟩ ⟨"B", "CC".data⟩)).1 ++
            docC3.sequences.filter
              (keeps_entry (select_split C3_atom1 C3_atom2 ⟨"A", 1⟩ ⟨"B", 2⟩
                ⟨"A", "MK".data⟩ ⟨"B", "CC".data⟩).split_chain_id)) :=
  C3_amended docC3 C3_atom1 C3_atom2 (initialize_residue_mapping docC3) ⟨"A", 1⟩ ⟨"B", 2⟩
    ⟨"A", "MK".data⟩ ⟨"B", "CC".data⟩ C3_expected (by decide) (by decide) (by decide)
    (by decide) (by decide)

theorem fragments_conserve (s : SplitArgs) (hlsn : 1 ≤ s.ligand_seq_num)
    (hle : s.ligand_seq_num ≤ s.split_chain_sequence.length) :
    (((if s.is_ligand_terminal then terminal_split_fragments s
       else internal_split_fragments s).1).map entrySize).sum + 1 =
      s.split_chain_sequence.length := by
  split
  · have hd1 := List.length_dropLast s.split_chain_sequence
    have hd2 := List.length_drop 1 s.split_chain_sequence
    simp only [terminal_split_fragments, create_protein_sequence]
    split_ifs with hc hemp hemp
    · have h3 := congrArg List.length hemp
      simp only [List.length_nil] at h3
      simp only [List.map_nil, List.sum_nil]
      omega
    · simp only [List.map_cons, List.map_nil, List.sum_cons, List.sum_nil, entrySize]
      omega
    · have h3 := congrArg List.length hemp
      simp only [List.length_nil] at h3
      simp only [List.map_nil, List.sum_nil]
      omega
    · simp only [List.map_cons, List.map_nil, List.sum_cons, List.sum_nil, entrySize]
      omega
  · have hd1 := List.length_take (s.ligand_seq_num - 1) s.split_chain_sequence
    have hd2 := List.length_drop s.ligand_seq_num s.split_chain_sequence
    simp only [internal_split_fragments, create_protein_sequence]
    split_ifs with ha hb hb <;>
      simp only [List.map_cons, List.map_nil, List.sum_cons, List.sum_nil,
        List.map_append, List.sum_append, List.nil_append, List.append_nil, entrySize]
    · have h3 := congrArg List.length ha
      have h4 := congrArg List.length hb
      simp only [List.length_nil] at h3 h4
      omega
    · have h3 := congrArg List.length ha
      simp only [List.length_nil] at h3
      omega
    · have h4 := congrArg List.length hb
      simp only [List.length_nil] at h4
      omega
    · omega

theorem filter_keeps_of_not_mem (l : List ChainEntry) (c : String)
    (h : c ∉ protein_ids l) : l.filter (keeps_entry c) = l := by
  induction l with
  | nil => rfl
  | cons e rest ih =>
    cases e with
    | protein p =>
      simp only [protein_ids, List.mem_cons] at h
      push_neg at h
      obtain ⟨hne, hrest⟩ := h
      simp [List.filter_cons, keeps_entry, bne_iff_ne, Ne.symm hne, ih hrest]
    | ligand lg =>
      simp only [protein_ids] at h
      simp [List.filter_cons, keeps_entry, ih h]
    | dna s =>
      simp only [protein_ids] at h
      simp [List.filter_cons, keeps_entry, ih h]
    | rna s =>
      simp only [protein_ids] at h
      simp [List.filter_cons, keeps_entry, ih h]

theorem filter_keeps_sum (l : List ChainEntry) (c : String) (p : ProteinEntry)
    (hn : (protein_ids l).Nodup) (hf : find_protein_entry l c = some p) :
    ((l.filter (keeps_entry c)).map entrySize).sum + p.sequence.length =
      (l.map entrySize).sum := by
  induction l with
  | nil => simp [find_protein_entry] at hf
  | cons e rest ih =>
    cases e with
    | protein q =>
      rw [protein_ids, List.nodup_cons] at hn
      by_cases hq : q.id = c
      · rw [find_protein_entry, if_pos hq] at hf
        obtain rfl := Option.some.inj hf
        have hrest := filter_keeps_of_not_mem rest c (hq ▸ hn.1)
        simp [List.filter_cons, keeps_entry, hq, hrest, entrySize]
        omega
      · rw [find_protein_entry, if_neg hq] at hf
        have := ih hn.2 hf
        simp [List.filter_cons, keeps_entry, bne_iff_ne, hq, entrySize]
        omega
    | ligand lg =>
      rw [protein_ids] at hn
      have := ih hn (by rw [find_protein_entry] at hf; exact hf)
      simp [List.filter_cons, keeps_entry, entrySize]
      omega
    | dna s =>
      rw [protein_ids] at hn
      have := ih hn (by rw [find_protein_entry] at hf; exact hf)
      simp [List.filter_cons, keeps_entry, entrySize]
      omega
    | rna s =>
      rw [protein_ids] at hn
      have := ih hn (by rw [find_protein_entry] at hf; exact hf)
      simp [List.filter_cons, keeps_entry, entrySize]
      omega

theorem select_split_found (doc : Document) (atom1 atom2 : Atom) (m1 m2 : MappedRes)
    (i1 i2 : ProteinEntry)
    (h3 : get_sequence_info doc m1.modified_chain_id = some i1)
    (h4 : get_sequence_info doc m2.modified_chain_id = some i2) :
    ∃ ps : ProteinEntry,
      get_sequence_info doc (select_split atom1 atom2 m1 m2 i1 i2).split_chain_id =
          some ps ∧
        ps.sequence = (select_split atom1 atom2 m1 m2 i1 i2).split_chain_sequence := by
  simp only [select_split]
  split
  · exact ⟨i1, h3, rfl⟩
  · exact ⟨i2, h4, rfl⟩

theorem split_core_preserves_total (doc : Document) (atom1 atom2 : Atom) (reg : Registry)
    (m1 m2 : MappedRes) (i1 i2 : ProteinEntry) (d : Document)
    (hn : (protein_ids doc.sequences).Nodup)
    (h3 : get_sequence_info doc m1.modified_chain_id = some i1)
    (h4 : get_sequence_info doc m2.modified_chain_id = some i2)
    (hlsn : 1 ≤ (select_split atom1 atom2 m1 m2 i1 i2).ligand_seq_num)
    (h5 : docOf (process_chain_bond_core doc atom1 atom2 reg m1 m2 i1 i2) = some d) :
    totalResidues d = totalResidues doc := by
  obtain ⟨lr, hg, hseq⟩ := process_core_ok_sequences doc atom1 atom2 reg m1 m2 i1 i2 d h5
  have hlt := (List.get?_eq_some.mp hg).1
  have hle : (select_split atom1 atom2 m1 m2 i1 i2).ligand_seq_num ≤
      (select_split atom1 atom2 m1 m2 i1 i2).split_chain_sequence.length := by omega
  have hfc := fragments_conserve (select_split atom1 atom2 m1 m2 i1 i2) hlsn hle
  obtain ⟨ps, hps, hpseq⟩ := select_split_found doc atom1 atom2 m1 m2 i1 i2 h3 h4
  have hfs := filter_keeps_sum doc.sequences
    (select_split atom1 atom2 m1 m2 i1 i2).split_chain_id ps hn hps
  have hps_len : ps.sequence.length =
      (select_split atom1 atom2 m1 m2 i1 i2).split_chain_sequence.length := by
    rw [hpseq]
  simp only [totalResidues] at hfs ⊢
  rw [hseq]
  simp only [List.map_cons, List.map_append, List.sum_cons, List.sum_append,
    create_ligand_from_residue, entrySize]
  omega

theorem resolve_bonds_preserve_total (bonds : List BondRec) :
    ∀ (doc : Document) (reg : Registry) (d : Document),
      steps_sane bonds doc reg = true →
      docOf (resolve_bonds bonds doc reg) = some d →
      totalResidues d = totalResidues doc := by
  induction bonds with
  | nil =>
    intro doc reg d hs hd
    simp only [resolve_bonds, docOf, Option.some.injEq] at hd
    rw [hd]
  | cons b rest ih =>
    intro doc reg d hs hd
    rcases b with _ | ⟨a1, _ | ⟨a2, _ | ⟨a3, t⟩⟩⟩
    · simp [resolve_bonds, docOf] at hd
    · simp [resolve_bonds, docOf] at hd
    · simp only [resolve_bonds] at hd
      simp only [steps_sane] at hs
      rcases hm : model_bond_with_ligand doc a1 a2 reg with e | ⟨d1, r1⟩
      · simp only [hm, docOf] at hd
        exact Option.noConfusion hd
      · simp only [hm] at hd hs
        rw [Bool.and_eq_true] at hs
        obtain ⟨hs1, hs2⟩ := hs
        have htail := ih d1 r1 d hs2 hd
        have hstep : totalResidues d1 = totalResidues doc := by
          have hm2 := hm
          unfold model_bond_with_ligand process_chain_bond at hm2
          simp only [step_sane] at hs1
          rcases hr1 : reg a1.chain a1.pos with _ | m1
          · simp only [hr1] at hm2
            exact Except.noConfusion hm2
          · rcases hr2 : reg a2.chain a2.pos with _ | m2
            · simp only [hr1, hr2] at hm2
              exact Except.noConfusion hm2
            · simp only [hr1, hr2] at hm2 hs1
              rcases hi1 : get_sequence_info doc m1.modified_chain_id with _ | i1
              · rcases hi2 : get_sequence_info doc m2.modified_chain_id with _ | i2 <;>
                  simp only [hi1, hi2, Except.ok.injEq, Prod.mk.injEq] at hm2 <;>
                  rw [hm2.1]
              · rcases hi2 : get_sequence_info doc m2.modified_chain_id with _ | i2
                · simp only [hi1, hi2, Except.ok.injEq, Prod.mk.injEq] at hm2
                  rw [hm2.1]
                · simp only [hi1, hi2] at hm2 hs1
                  rw [Bool.and_eq_true, decide_eq_true_eq, decide_eq_true_eq] at hs1
                  exact split_core_preserves_total doc a1 a2 reg m1 m2 i1 i2 d1 hs1.1
                    hi1 hi2 hs1.2 (by rw [hm2]; rfl)
        rw [htail, hstep]
    · simp [resolve_bonds, docOf] at hd

/-- C8 amended: every split conserves residues — the emitted fragments
plus the one-residue ligand sum to the split chain's current length — and
therefore a run of sane sequential splits leaves the document's total
residue count unchanged: the fragments and ligands CURRENTLY present in
the final document account for every original residue (superseded
fragments, consumed by later splits, are not double-counted). -/
theorem C8_amended :
    (∀ s : SplitArgs, 1 ≤ s.ligand_seq_num →
      s.ligand_seq_num ≤ s.split_chain_sequence.length →
      (((if s.is_ligand_terminal then terminal_split_fragments s
         else internal_split_fragments s).1).map entrySize).sum + 1 =
        s.split_chain_sequence.length) ∧
    (∀ (bonds : List BondRec) (doc : Document) (reg : Registry) (d : Document),
      steps_sane bonds doc reg = true →
      docOf (resolve_bonds bonds doc reg) = some d →
      totalResidues d = totalResidues doc) :=
  ⟨fragments_conserve, fun bonds => resolve_bonds_preserve_total bonds⟩

/-- Witness for C8 on the docC1 run: the one split preserves the
document's 10 residues. -/
theorem C8_amended_witness :
    steps_sane [[C1_atom1, C1_atom2]] docC1 (initialize_residue_mapping docC1) = true ∧
    totalResidues C1_expected = totalResidues docC1 :=
  ⟨by decide,
   C8_amended.2 [[C1_atom1, C1_atom2]] docC1 (initialize_residue_mapping docC1)
     C1_expected (by decide) (by decide)⟩

/-- Witness for C10 on docC10: its one-endpoint record is not classified,
and resolving the qualifying bond hits the fatal malformed-bond error. -/
theorem C10_classifier_vs_rewriter_witness :
    C10_mal ∉ find_protein_protein_bonds docC10 ∧
    process_chain_bond docC10 ⟨"A", 1, "N"⟩ ⟨"B", 1, "CA"⟩
        (initialize_residue_mapping docC10) =
      Except.error "Bonded atom pair must have exactly two elements" :=
  ⟨C10_classifier_vs_rewriter.1 docC10 C10_mal (by decide) (by decide),
   C10_classifier_vs_rewriter.2 docC10 ⟨"A", 1, "N"⟩ ⟨"B", 1, "CA"⟩
     (initialize_residue_mapping docC10) ⟨"A", 1⟩ ⟨"B", 1⟩ ⟨"A", "MK".data⟩
     ⟨"B", "GG".data⟩ C10_mal (by decide) (by decide) (by decide) (by decide)
     (by decide) (by decide) (by decide)⟩
